import Mathlib

/-!
Shallow embedding of the ai-tokens cost-estimation core: the pricing
catalog (src/data/pricing.ts), the remote pricing fetcher
(src/data/pricing-fetcher.ts), the tokenizer dispatcher
(src/core/tokenizer.ts) and the cost calculator
(src/core/cost-calculator.ts).

Conventions of the embedding:
* JavaScript numbers are idealized as exact rationals; a division whose
  zero divisor makes JavaScript produce a non-finite value
  (Infinity or NaN) is modelled by `jsDiv` returning `none`.
* The external tiktoken library is an opaque parameter: its
  encoding_for_model either returns an encoder or throws, modelled as
  `Option`; an encoder exposes encode, and the core only reads the
  length of the returned token-id sequence.
* A thrown JavaScript exception is modelled as `Except.error` or
  `Option.none` at the site of the try/catch that observes it.
-/

/-- JavaScript division `a / b`: the non-finite result (Infinity or NaN)
produced by a zero divisor is modelled as `none`. -/
def jsDiv (a b : ℚ) : Option ℚ := if b = 0 then none else some (a / b)

/-- JavaScript `x || d` on an optional string field: the fallback `d` is
taken when the field is undefined or the empty string (both falsy). -/
def jsOrString (o : Option String) (d : String) : String :=
  match o with
  | some s => if s = "" then d else s
  | none => d

/-- Does `needle` occur contiguously in `hay`? Structural recursion on
`hay`, so concrete instances reduce in the kernel. -/
def occursIn (needle : List Char) : List Char → Bool
  | [] => needle.isEmpty
  | c :: rest => needle.isPrefixOf (c :: rest) || occursIn needle rest

/-- JavaScript `s.includes(sub)`: `sub` occurs contiguously in `s`. -/
def jsIncludes (s sub : String) : Bool := occursIn sub.data s.data

/-- JavaScript `s.toLowerCase()` on the ASCII model keys: lowercase each
character (the behaviour of `String.toLower`, stated structurally so
concrete instances reduce in the kernel). -/
def jsToLower (s : String) : String := String.mk (s.data.map Char.toLower)

/-- The `ModelPricing` interface of src/data/pricing.ts. -/
structure ModelPricing where
  name : String
  provider : String
  inputPricePerMillion : ℚ
  outputPricePerMillion : ℚ
  contextWindow : ℚ
  encoding : Option String
deriving Repr, DecidableEq

/-- A JavaScript `Record<string, ModelPricing>` viewed as a partial map
from keys to records. -/
def PricingRecordMap : Type := String → Option ModelPricing

/-- The empty record `{}`. -/
def emptyPricing : PricingRecordMap := fun _ => none

/-- JavaScript property assignment `r[k] = v` on a pricing record. -/
def setPricing (r : PricingRecordMap) (k : String) (v : ModelPricing) :
    PricingRecordMap :=
  fun key => if key = k then some v else r key

/-- The static default table `MODEL_PRICING` of src/data/pricing.ts. -/
def MODEL_PRICING : PricingRecordMap := fun key =>
  match key with
  | "gpt-4o" => some ⟨"GPT-4o", "OpenAI", 5.00, 15.00, 128000, some "cl100k_base"⟩
  | "gpt-4o-mini" => some ⟨"GPT-4o Mini", "OpenAI", 0.15, 0.60, 128000, some "cl100k_base"⟩
  | "gpt-4-turbo" => some ⟨"GPT-4 Turbo", "OpenAI", 10.00, 30.00, 128000, some "cl100k_base"⟩
  | "gpt-4" => some ⟨"GPT-4", "OpenAI", 30.00, 60.00, 8192, some "cl100k_base"⟩
  | "gpt-3.5-turbo" => some ⟨"GPT-3.5 Turbo", "OpenAI", 0.50, 1.50, 16385, some "cl100k_base"⟩
  | "claude-opus-4" => some ⟨"Claude Opus 4", "Anthropic", 15.00, 75.00, 200000, none⟩
  | "claude-sonnet-4" => some ⟨"Claude Sonnet 4", "Anthropic", 3.00, 15.00, 200000, none⟩
  | "claude-sonnet-3-5" => some ⟨"Claude 3.5 Sonnet", "Anthropic", 3.00, 15.00, 200000, none⟩
  | "claude-haiku-3-5" => some ⟨"Claude 3.5 Haiku", "Anthropic", 1.00, 5.00, 200000, none⟩
  | "claude-3-opus" => some ⟨"Claude 3 Opus", "Anthropic", 15.00, 75.00, 200000, none⟩
  | "claude-3-sonnet" => some ⟨"Claude 3 Sonnet", "Anthropic", 3.00, 15.00, 200000, none⟩
  | "claude-3-haiku" => some ⟨"Claude 3 Haiku", "Anthropic", 0.25, 1.25, 200000, none⟩
  | "gemini-2.0-flash" => some ⟨"Gemini 2.0 Flash", "Google", 0.00, 0.00, 1000000, none⟩
  | "gemini-1.5-pro" => some ⟨"Gemini 1.5 Pro", "Google", 1.25, 5.00, 2000000, none⟩
  | "gemini-1.5-flash" => some ⟨"Gemini 1.5 Flash", "Google", 0.075, 0.30, 1000000, none⟩
  | "llama-3.1-405b" => some ⟨"Llama 3.1 405B", "Meta", 5.00, 15.00, 128000, none⟩
  | "llama-3.1-70b" => some ⟨"Llama 3.1 70B", "Meta", 0.90, 0.90, 128000, none⟩
  | "llama-3.1-8b" => some ⟨"Llama 3.1 8B", "Meta", 0.20, 0.20, 128000, none⟩
  | _ => none

/-- The alias table `MODEL_ALIASES` of src/data/pricing.ts. -/
def MODEL_ALIASES : String → Option String := fun key =>
  match key with
  | "gpt4o" => some "gpt-4o"
  | "gpt4" => some "gpt-4"
  | "gpt-4-0125-preview" => some "gpt-4-turbo"
  | "gpt-4-1106-preview" => some "gpt-4-turbo"
  | "gpt35" => some "gpt-3.5-turbo"
  | "gpt-3.5" => some "gpt-3.5-turbo"
  | "opus-4" => some "claude-opus-4"
  | "sonnet-4" => some "claude-sonnet-4"
  | "haiku-3.5" => some "claude-haiku-3-5"
  | "opus" => some "claude-3-opus"
  | "sonnet" => some "claude-3-sonnet"
  | "haiku" => some "claude-3-haiku"
  | "gemini-pro" => some "gemini-1.5-pro"
  | "gemini-flash" => some "gemini-1.5-flash"
  | "gemini" => some "gemini-1.5-pro"
  | _ => none

/-- Function `getModelPricing` of src/data/pricing.ts: lowercase the key, try a
direct hit in the runtime catalog, then the alias table; `runtimePricing`
is the module-level catalog state, passed explicitly here. -/
def getModelPricing (runtimePricing : PricingRecordMap) (model : String) :
    Option ModelPricing :=
  let normalizedModel := jsToLower model
  match runtimePricing normalizedModel with
  | some p => some p
  | none =>
    match MODEL_ALIASES normalizedModel with
    | some aliasedModel => runtimePricing aliasedModel
    | none => none

/-- An encoder returned by tiktoken: `encode(text)` yields a sequence of
opaque token ids; the core only uses its length. -/
structure Tiktoken where
  encode : String → List Nat

/-- The external tiktoken library: `encoding_for_model` returns an
encoder or throws (`none`). -/
structure TiktokenLib where
  encodingForModel : String → Option Tiktoken

/-- The `TokenCount` interface of src/core/tokenizer.ts. -/
structure TokenCount where
  tokens : Nat
  characters : Nat
  model : String
deriving Repr, DecidableEq

/-- Function `countOpenAITokens` of src/core/tokenizer.ts: try
`encoding_for_model(model)`, on a throw fall back to
`encoding_for_model(pricing?.encoding || 'cl100k_base')`; a throw of the
fallback call too propagates (`none`). -/
def countOpenAITokens (lib : TiktokenLib) (runtimePricing : PricingRecordMap)
    (text : String) (model : String) : Option TokenCount :=
  let pricing := getModelPricing runtimePricing model
  let encoding := jsOrString (pricing.bind fun p => p.encoding) "cl100k_base"
  match lib.encodingForModel model with
  | some enc =>
    some { tokens := (enc.encode text).length, characters := text.length, model := model }
  | none =>
    match lib.encodingForModel encoding with
    | some enc =>
      some { tokens := (enc.encode text).length, characters := text.length, model := model }
    | none => none

/-- Function `countClaudeTokens` of src/core/tokenizer.ts:
`Math.ceil(text.length / 4)`, which on a natural length is
`(text.length + 3) / 4`. -/
def countClaudeTokens (text : String) (model : String) : TokenCount :=
  { tokens := (text.length + 3) / 4, characters := text.length, model := model }

/-- Function `countGeminiTokens` of src/core/tokenizer.ts: the same
`Math.ceil(text.length / 4)` estimation as for Claude. -/
def countGeminiTokens (text : String) (model : String) : TokenCount :=
  { tokens := (text.length + 3) / 4, characters := text.length, model := model }

/-- Function `countLlamaTokens` of src/core/tokenizer.ts: always encodes with
`encoding_for_model('cl100k_base')`; a throw propagates (`none`). -/
def countLlamaTokens (lib : TiktokenLib) (text : String) (model : String) :
    Option TokenCount :=
  match lib.encodingForModel "cl100k_base" with
  | some enc =>
    some { tokens := (enc.encode text).length, characters := text.length, model := model }
  | none => none

/-- Function `countTokens` of src/core/tokenizer.ts: dispatch on substrings of the
lowercased model key, in the fixed order gpt, claude, gemini, llama,
default. -/
def countTokens (lib : TiktokenLib) (runtimePricing : PricingRecordMap)
    (text : String) (model : String) : Option TokenCount :=
  let normalizedModel := jsToLower model
  if jsIncludes normalizedModel "gpt" then
    countOpenAITokens lib runtimePricing text model
  else if jsIncludes normalizedModel "claude" then
    some (countClaudeTokens text model)
  else if jsIncludes normalizedModel "gemini" then
    some (countGeminiTokens text model)
  else if jsIncludes normalizedModel "llama" then
    countLlamaTokens lib text model
  else
    countOpenAITokens lib runtimePricing text model

/-- The `CostEstimate` interface of src/core/cost-calculator.ts.
`costPerToken` is `Option`-valued because the source divides by
`inputTokens + outputTokens`, which JavaScript turns into a non-finite
value when that sum is zero. -/
structure CostEstimate where
  model : String
  inputTokens : Nat
  outputTokens : ℚ
  inputCost : ℚ
  outputCost : ℚ
  totalCost : ℚ
  costPerToken : Option ℚ
  pricing : ModelPricing
deriving Repr, DecidableEq

/-- The exceptions a cost calculation can raise: the explicit
`Unknown model` throw of `calculateCost`, or a throw escaping the
external tiktoken library inside `countTokens`. -/
inductive CalcError where
  | unknownModel (model : String)
  | tokenizerThrow
deriving Repr, DecidableEq

/-- Function `calculateCost` of src/core/cost-calculator.ts. -/
def calculateCost (lib : TiktokenLib) (runtimePricing : PricingRecordMap)
    (inputText : String) (model : String) (estimatedOutputTokens : ℚ) :
    Except CalcError CostEstimate :=
  match getModelPricing runtimePricing model with
  | none => .error (.unknownModel model)
  | some pricing =>
    match countTokens lib runtimePricing inputText model with
    | none => .error .tokenizerThrow
    | some tokenCount =>
      let inputTokens := tokenCount.tokens
      let outputTokens := estimatedOutputTokens
      let inputCost := ((inputTokens : ℚ) / 1000000) * pricing.inputPricePerMillion
      let outputCost := (outputTokens / 1000000) * pricing.outputPricePerMillion
      let totalCost := inputCost + outputCost
      let costPerToken := jsDiv totalCost ((inputTokens : ℚ) + outputTokens)
      .ok { model := model, inputTokens := inputTokens, outputTokens := outputTokens,
            inputCost := inputCost, outputCost := outputCost, totalCost := totalCost,
            costPerToken := costPerToken, pricing := pricing }

/-- One element of the `alternatives` array of `CostComparison`
(src/core/cost-calculator.ts). `savingsPercent` is `Option`-valued
because the source divides by the baseline total cost, which JavaScript
turns into a non-finite value when that cost is zero. -/
structure AltEntry where
  model : String
  estimate : CostEstimate
  savings : ℚ
  savingsPercent : Option ℚ
deriving Repr, DecidableEq

/-- The `CostComparison` interface of src/core/cost-calculator.ts. -/
structure CostComparison where
  current : CostEstimate
  alternatives : List AltEntry
deriving Repr, DecidableEq

/-- Stable insertion for a sort descending by `savings`: an element moves
in front of another exactly when its savings are strictly greater, so
ties keep their original relative order — the behaviour of the stable
JavaScript `Array.prototype.sort` under the comparator
`(a, b) => b.savings - a.savings`. -/
def insertBySavingsDesc (x : AltEntry) : List AltEntry → List AltEntry
  | [] => [x]
  | y :: ys =>
    if y.savings ≤ x.savings then x :: y :: ys else y :: insertBySavingsDesc x ys

/-- The stable descending-by-`savings` sort used by `compareCosts`
(JavaScript `.sort((a, b) => b.savings - a.savings)`, stable per the
ECMAScript specification; a stable sort for a total preorder is unique,
so insertion sort realizes it). -/
def sortBySavingsDesc (l : List AltEntry) : List AltEntry :=
  l.foldr insertBySavingsDesc []

/-- The candidate mapping step of `compareCosts`: JavaScript
`.map(...)` returning `null` for a candidate whose `calculateCost`
throws, followed by `.filter((alt) => alt !== null)`, fused as
`filterMap`. -/
def compareAlternativesRaw (lib : TiktokenLib) (runtimePricing : PricingRecordMap)
    (inputText : String) (current : CostEstimate) (alternativeModels : List String)
    (estimatedOutputTokens : ℚ) : List AltEntry :=
  alternativeModels.filterMap fun model =>
    match calculateCost lib runtimePricing inputText model estimatedOutputTokens with
    | .ok estimate =>
      let savings := current.totalCost - estimate.totalCost
      let savingsPercent := (jsDiv savings current.totalCost).map (· * 100)
      some { model := model, estimate := estimate, savings := savings,
             savingsPercent := savingsPercent }
    | .error _ => none

/-- Function `compareCosts` of src/core/cost-calculator.ts: the baseline estimate
is computed outside any try/catch, so its exception propagates; each
candidate is estimated inside a try/catch and dropped on failure. -/
def compareCosts (lib : TiktokenLib) (runtimePricing : PricingRecordMap)
    (inputText : String) (currentModel : String) (alternativeModels : List String)
    (estimatedOutputTokens : ℚ) : Except CalcError CostComparison :=
  match calculateCost lib runtimePricing inputText currentModel estimatedOutputTokens with
  | .error e => .error e
  | .ok current =>
    .ok { current := current,
          alternatives :=
            sortBySavingsDesc
              (compareAlternativesRaw lib runtimePricing inputText current
                alternativeModels estimatedOutputTokens) }

/-- The fixed candidate list of the CLI compare command
(src/cli/index.ts), filtered by `m !== options.model` so the baseline
never reaches `compareCosts` as a candidate. -/
def cliAlternatives (model : String) : List String :=
  ["gpt-4o-mini", "gpt-3.5-turbo", "claude-sonnet-4", "claude-haiku-3-5",
   "gemini-1.5-flash"].filter fun m => m ≠ model

/-- One entry pushed by `getCostOptimizations`
(src/core/cost-calculator.ts). The source pushes
`{suggestion, potentialSavings}` strings; the embedding keeps the
numbers each string is rendered from (`toFixed`/`Math.round` formatting
is presentation). `switchToMini` carries the computed savings and the
percentage (non-finite when the total cost is zero, hence `Option`);
`reduceContext` and `reduceOutput` carry the token reduction and the
dollar saving. -/
inductive Optimization where
  | switchToMini (savings : ℚ) (savingsPercent : Option ℚ)
  | switchToClaudeSonnet4
  | switchToGpt4o
  | reduceContext (reduction : ℚ) (potentialSaving : ℚ)
  | reduceOutput (reduction : ℚ) (potentialSaving : ℚ)
deriving Repr, DecidableEq

/-- The last four rules of `getCostOptimizations`, which never throw:
the claude-opus rule, the gpt-4-turbo/gpt-4 rule, the context-reduction
rule and the output-reduction rule, appended in source order. -/
def getCostOptimizationsTail (estimate : CostEstimate) : List Optimization :=
  (if jsIncludes estimate.model "claude-opus" then [Optimization.switchToClaudeSonnet4]
   else [])
  ++ (if jsIncludes estimate.model "gpt-4-turbo" || estimate.model = "gpt-4" then
        [Optimization.switchToGpt4o]
      else [])
  ++ (if 1000 < estimate.inputTokens then
        let reduction := min 1000 ((estimate.inputTokens : ℚ) * 0.3)
        [Optimization.reduceContext reduction
          ((reduction / 1000000) * estimate.pricing.inputPricePerMillion)]
      else [])
  ++ (if 1000 < estimate.outputTokens then
        let reduction := min 500 (estimate.outputTokens * 0.2)
        [Optimization.reduceOutput reduction
          ((reduction / 1000000) * estimate.pricing.outputPricePerMillion)]
      else [])

/-- Function `getCostOptimizations` of src/core/cost-calculator.ts. The gpt-4o
rule calls `calculateCost('', 'gpt-4o-mini', estimate.outputTokens)`
(whose result `miniEstimate` the source never reads) outside any
try/catch, so a throw of that call propagates (`none`); its pushed
savings are computed from the hardcoded gpt-4o-mini rates 0.15/0.60. -/
def getCostOptimizations (lib : TiktokenLib) (runtimePricing : PricingRecordMap)
    (estimate : CostEstimate) : Option (List Optimization) :=
  if jsIncludes estimate.model "gpt-4o" && !jsIncludes estimate.model "mini" then
    match calculateCost lib runtimePricing "" "gpt-4o-mini" estimate.outputTokens with
    | .error _ => none
    | .ok _ =>
      let savings := estimate.totalCost - ((estimate.inputTokens : ℚ) / 1000000) * 0.15
        - (estimate.outputTokens / 1000000) * 0.60
      some (Optimization.switchToMini savings
              ((jsDiv savings estimate.totalCost).map (· * 100))
            :: getCostOptimizationsTail estimate)
  else
    some (getCostOptimizationsTail estimate)

/-- The `LiteLLMModel` interface of src/data/pricing-fetcher.ts,
restricted to the fields the conversion reads (the other optional
fields — max_output_tokens, mode, vision/function-calling flags — are
never read). -/
structure LiteLLMModel where
  input_cost_per_token : Option ℚ
  output_cost_per_token : Option ℚ
  max_input_tokens : Option ℚ
  litellm_provider : Option String
deriving Repr, DecidableEq

/-- JavaScript `!x` on an optional numeric field: true when the field is
undefined or zero (both falsy). -/
def jsFalsyNum (o : Option ℚ) : Bool :=
  match o with
  | some x => x = 0
  | none => true

/-- JavaScript `x || d` on an optional numeric field: the fallback `d`
is taken when the field is undefined or zero (both falsy). -/
def jsOrNum (o : Option ℚ) (d : ℚ) : ℚ :=
  match o with
  | some x => if x = 0 then d else x
  | none => d

/-- One value of the `modelMappings` table of
src/data/pricing-fetcher.ts. -/
structure MappingEntry where
  key : String
  name : String
  provider : String
deriving Repr, DecidableEq

/-- The `modelMappings` allowlist/rename table of
src/data/pricing-fetcher.ts: LiteLLM keys to the catalog's canonical
keys. -/
def modelMappings : String → Option MappingEntry := fun litellmKey =>
  match litellmKey with
  | "gpt-5" => some ⟨"gpt-5", "GPT-5", "OpenAI"⟩
  | "gpt-5-mini" => some ⟨"gpt-5-mini", "GPT-5 Mini", "OpenAI"⟩
  | "gpt-5-nano" => some ⟨"gpt-5-nano", "GPT-5 Nano", "OpenAI"⟩
  | "gpt-5-pro" => some ⟨"gpt-5-pro", "GPT-5 Pro", "OpenAI"⟩
  | "gpt-4o" => some ⟨"gpt-4o", "GPT-4o", "OpenAI"⟩
  | "gpt-4o-mini" => some ⟨"gpt-4o-mini", "GPT-4o Mini", "OpenAI"⟩
  | "gpt-4-turbo" => some ⟨"gpt-4-turbo", "GPT-4 Turbo", "OpenAI"⟩
  | "gpt-4" => some ⟨"gpt-4", "GPT-4", "OpenAI"⟩
  | "gpt-3.5-turbo" => some ⟨"gpt-3.5-turbo", "GPT-3.5 Turbo", "OpenAI"⟩
  | "o1-preview" => some ⟨"o1-preview", "O1 Preview", "OpenAI"⟩
  | "o1-mini" => some ⟨"o1-mini", "O1 Mini", "OpenAI"⟩
  | "claude-sonnet-4-5" => some ⟨"claude-sonnet-4-5", "Claude Sonnet 4.5", "Anthropic"⟩
  | "claude-sonnet-4-5-20250929" => some ⟨"claude-sonnet-4-5", "Claude Sonnet 4.5", "Anthropic"⟩
  | "claude-opus-4-20250514" => some ⟨"claude-opus-4", "Claude Opus 4", "Anthropic"⟩
  | "claude-sonnet-4-20250514" => some ⟨"claude-sonnet-4", "Claude Sonnet 4", "Anthropic"⟩
  | "claude-3-5-sonnet-20241022" => some ⟨"claude-sonnet-3-5", "Claude 3.5 Sonnet", "Anthropic"⟩
  | "claude-3-5-haiku-20241022" => some ⟨"claude-haiku-3-5", "Claude 3.5 Haiku", "Anthropic"⟩
  | "claude-3-opus-20240229" => some ⟨"claude-3-opus", "Claude 3 Opus", "Anthropic"⟩
  | "claude-3-sonnet-20240229" => some ⟨"claude-3-sonnet", "Claude 3 Sonnet", "Anthropic"⟩
  | "claude-3-haiku-20240307" => some ⟨"claude-3-haiku", "Claude 3 Haiku", "Anthropic"⟩
  | "gemini-2.0-flash-exp" => some ⟨"gemini-2.0-flash", "Gemini 2.0 Flash", "Google"⟩
  | "gemini-1.5-pro" => some ⟨"gemini-1.5-pro", "Gemini 1.5 Pro", "Google"⟩
  | "gemini-1.5-flash" => some ⟨"gemini-1.5-flash", "Gemini 1.5 Flash", "Google"⟩
  | "meta-llama/llama-3.1-405b-instruct" => some ⟨"llama-3.1-405b", "Llama 3.1 405B", "Meta"⟩
  | "meta-llama/llama-3.1-70b-instruct" => some ⟨"llama-3.1-70b", "Llama 3.1 70B", "Meta"⟩
  | "meta-llama/llama-3.1-8b-instruct" => some ⟨"llama-3.1-8b", "Llama 3.1 8B", "Meta"⟩
  | "deepseek-chat" => some ⟨"deepseek-chat", "DeepSeek Chat", "DeepSeek"⟩
  | "deepseek-reasoner" => some ⟨"deepseek-reasoner", "DeepSeek Reasoner", "DeepSeek"⟩
  | _ => none

/-- The loop body of `convertLiteLLMPricing`: skip an entry with a falsy
cost field or a key outside `modelMappings`, otherwise assign the
converted record under the canonical key (later entries overwrite). -/
def convertStep (pricing : PricingRecordMap) (entry : String × LiteLLMModel) :
    PricingRecordMap :=
  let litellmKey := entry.1
  let model := entry.2
  if jsFalsyNum model.input_cost_per_token || jsFalsyNum model.output_cost_per_token then
    pricing
  else
    match modelMappings litellmKey with
    | none => pricing
    | some mapping =>
      setPricing pricing mapping.key
        { name := mapping.name,
          provider := mapping.provider,
          inputPricePerMillion := (model.input_cost_per_token.getD 0) * 1000000,
          outputPricePerMillion := (model.output_cost_per_token.getD 0) * 1000000,
          contextWindow := jsOrNum model.max_input_tokens 128000,
          encoding := if mapping.provider = "OpenAI" then some "cl100k_base" else none }

/-- Function `convertLiteLLMPricing` of src/data/pricing-fetcher.ts: fold
`convertStep` over the document's entries (in `Object.entries` order)
starting from the empty record. -/
def convertLiteLLMPricing (litellmData : List (String × LiteLLMModel)) :
    PricingRecordMap :=
  litellmData.foldl convertStep emptyPricing

/-- The outcome of the remote fetch: either the parsed JSON document as
an entry list, or any network/HTTP/parse failure. -/
inductive FetchOutcome where
  | success (litellmData : List (String × LiteLLMModel))
  | failure

/-- Function `fetchCommunityPricing` of src/data/pricing-fetcher.ts: convert the
fetched document; its own try/catch absorbs every failure into the
empty record, so the function never throws. -/
def fetchCommunityPricing (outcome : FetchOutcome) : PricingRecordMap :=
  match outcome with
  | .success litellmData => convertLiteLLMPricing litellmData
  | .failure => emptyPricing

/-- Function `mergePricing` of src/data/pricing-fetcher.ts: the object spread
`{...fallbackPricing, ...communityPricing}` — a key present in both
takes the community value. -/
def mergePricing (communityPricing fallbackPricing : PricingRecordMap) :
    PricingRecordMap :=
  fun key =>
    match communityPricing key with
    | some v => some v
    | none => fallbackPricing key

/-- The module-level cache of src/data/pricing-fetcher.ts
(`cachedPricing`, `cacheTimestamp`). -/
structure FetcherCache where
  cachedPricing : Option PricingRecordMap
  cacheTimestamp : ℤ

/-- Constant `CACHE_DURATION` of src/data/pricing-fetcher.ts: 24 hours in
milliseconds. -/
def CACHE_DURATION : ℤ := 24 * 60 * 60 * 1000

/-- Function `getCachedPricing` of src/data/pricing-fetcher.ts: reuse a cache
younger than `CACHE_DURATION`, otherwise fetch, merge over the fallback
and store the result with the current wall-clock time. Its catch branch
(return the fallback) is unreachable because `fetchCommunityPricing`
never throws, and is therefore not modelled. -/
def getCachedPricing (outcome : FetchOutcome) (fallbackPricing : PricingRecordMap)
    (cache : FetcherCache) (now : ℤ) : PricingRecordMap × FetcherCache :=
  let fetchFresh : Unit → PricingRecordMap × FetcherCache := fun _ =>
    let communityPricing := fetchCommunityPricing outcome
    let merged := mergePricing communityPricing fallbackPricing
    (merged, { cachedPricing := some merged, cacheTimestamp := now })
  match cache.cachedPricing with
  | some cached =>
    if now - cache.cacheTimestamp < CACHE_DURATION then (cached, cache)
    else fetchFresh ()
  | none => fetchFresh ()

/-- The module-level catalog state of src/data/pricing.ts
(`runtimePricing`, `pricingInitialized`). -/
structure PricingState where
  runtimePricing : PricingRecordMap
  pricingInitialized : Bool

/-- The state of src/data/pricing.ts at module load:
`runtimePricing = MODEL_PRICING`, not yet initialized. -/
def initialPricingState : PricingState :=
  { runtimePricing := MODEL_PRICING, pricingInitialized := false }

/-- The state of src/data/pricing-fetcher.ts at module load: no cached
pricing, timestamp 0. -/
def initialFetcherCache : FetcherCache :=
  { cachedPricing := none, cacheTimestamp := 0 }

/-- Function `initializePricing` of src/data/pricing.ts: a no-op once
`pricingInitialized` is set; otherwise install the catalog produced by
`getCachedPricing MODEL_PRICING` and set the flag. The function is
total for every fetch outcome — every failure of the fetch path is
absorbed before it reaches this frame, so the catch branch here is
unreachable and the call never throws. -/
def initializePricing (outcome : FetchOutcome) (now : ℤ)
    (ps : PricingState) (cache : FetcherCache) : PricingState × FetcherCache :=
  if ps.pricingInitialized then (ps, cache)
  else
    let r := getCachedPricing outcome MODEL_PRICING cache now
    ({ runtimePricing := r.1, pricingInitialized := true }, r.2)

/-! ## Helper lemmas and sample instances -/

/-- The ceiling `Math.ceil(n / 4)` on a natural `n` is `(n + 3) / 4`. -/
lemma natCeilDivFour (n : ℕ) : ((n + 3) / 4 : ℕ) = ⌈(n : ℚ) / 4⌉₊ := by
  rcases Nat.eq_zero_or_pos n with h | h
  · subst h; norm_num
  · symm
    rw [Nat.ceil_eq_iff (by omega : (n + 3) / 4 ≠ 0)]
    constructor
    · rw [lt_div_iff₀ (by norm_num : (0:ℚ) < 4)]
      have hx : ((n + 3) / 4 - 1) * 4 < n := by omega
      exact_mod_cast hx
    · rw [div_le_iff₀ (by norm_num : (0:ℚ) < 4)]
      have hx : n ≤ ((n + 3) / 4) * 4 := by omega
      exact_mod_cast hx

/-- An `Except` whose `isOk` holds is an `ok`. -/
lemma exists_ok_of_isOk {ε α : Type} {x : Except ε α} (h : x.isOk = true) :
    ∃ a, x = .ok a := by
  cases x with
  | ok a => exact ⟨a, rfl⟩
  | error e => simp [Except.isOk, Except.toBool] at h

/-- A concrete stand-in for the external tiktoken library, used only to
instantiate theorems at witnesses: every encoding name yields a
one-token-per-character encoder. -/
def sampleTotalLib : TiktokenLib :=
  { encodingForModel := fun _ => some { encode := fun t => t.data.map Char.toNat } }

/-- The stand-in library is total. -/
lemma sampleTotalLib_total : ∀ s, (sampleTotalLib.encodingForModel s).isSome = true :=
  fun _ => rfl

/-- A pricing record with integer rates, used only to instantiate
theorems at witnesses. -/
def sampleRecord : ModelPricing :=
  { name := "Test Claude", provider := "Anthropic", inputPricePerMillion := 5,
    outputPricePerMillion := 15, contextWindow := 1000, encoding := none }

/-- A one-record catalog holding `sampleRecord` under the key
claude-test, used only to instantiate theorems at witnesses. -/
def sampleCatalog : PricingRecordMap :=
  fun k => if k = "claude-test" then some sampleRecord else none

/-- Counting `countOpenAITokens` succeeds whenever the external library does. -/
lemma countOpenAITokens_total (lib : TiktokenLib) (cat : PricingRecordMap)
    (text model : String) (hTotal : ∀ s, (lib.encodingForModel s).isSome = true) :
    ∃ tc, countOpenAITokens lib cat text model = some tc := by
  obtain ⟨enc, he⟩ := Option.isSome_iff_exists.mp (hTotal model)
  refine ⟨{ tokens := (enc.encode text).length, characters := text.length,
            model := model }, ?_⟩
  simp only [countOpenAITokens, he]

/-- Counting `countLlamaTokens` succeeds whenever the external library does. -/
lemma countLlamaTokens_total (lib : TiktokenLib) (text model : String)
    (hTotal : ∀ s, (lib.encodingForModel s).isSome = true) :
    ∃ tc, countLlamaTokens lib text model = some tc := by
  obtain ⟨enc, he⟩ := Option.isSome_iff_exists.mp (hTotal "cl100k_base")
  refine ⟨{ tokens := (enc.encode text).length, characters := text.length,
            model := model }, ?_⟩
  simp only [countLlamaTokens, he]

/-- Counting `countTokens` succeeds whenever the external library does. -/
lemma countTokens_total (lib : TiktokenLib) (cat : PricingRecordMap)
    (text model : String) (hTotal : ∀ s, (lib.encodingForModel s).isSome = true) :
    ∃ tc, countTokens lib cat text model = some tc := by
  unfold countTokens
  dsimp only
  split
  · exact countOpenAITokens_total lib cat text model hTotal
  · split
    · exact ⟨_, rfl⟩
    · split
      · exact ⟨_, rfl⟩
      · split
        · exact countLlamaTokens_total lib text model hTotal
        · exact countOpenAITokens_total lib cat text model hTotal

/-! ## C1 -/

/-- C1: for every input text, every model key the catalog resolves to a
pricing record, and every expectedOutputTokens ≥ 0, the cost estimate
satisfies inputCost = inputTokens / 1,000,000 × inputPricePerMillion,
outputCost = expectedOutputTokens / 1,000,000 × outputPricePerMillion,
totalCost = inputCost + outputCost and
costPerToken = totalCost / (inputTokens + expectedOutputTokens), where
inputTokens is the tokenizer adapter's count; when
inputTokens + expectedOutputTokens = 0 the costPerToken value is
non-finite (modelled as `none`). -/
theorem calculateCost_formulas (lib : TiktokenLib) (cat : PricingRecordMap)
    (text model : String) (out : ℚ) (p : ModelPricing) (tc : TokenCount)
    (hp : getModelPricing cat model = some p)
    (htc : countTokens lib cat text model = some tc)
    (hout : 0 ≤ out) :
    ∃ est, calculateCost lib cat text model out = .ok est ∧
      est.inputTokens = tc.tokens ∧
      est.outputTokens = out ∧
      est.inputCost = ((tc.tokens : ℚ) / 1000000) * p.inputPricePerMillion ∧
      est.outputCost = (out / 1000000) * p.outputPricePerMillion ∧
      est.totalCost = est.inputCost + est.outputCost ∧
      est.costPerToken = jsDiv est.totalCost ((tc.tokens : ℚ) + out) ∧
      (((tc.tokens : ℚ) + out = 0) → est.costPerToken = none) := by
  refine ⟨{ model := model, inputTokens := tc.tokens, outputTokens := out,
            inputCost := ((tc.tokens : ℚ) / 1000000) * p.inputPricePerMillion,
            outputCost := (out / 1000000) * p.outputPricePerMillion,
            totalCost := ((tc.tokens : ℚ) / 1000000) * p.inputPricePerMillion
              + (out / 1000000) * p.outputPricePerMillion,
            costPerToken := jsDiv
              (((tc.tokens : ℚ) / 1000000) * p.inputPricePerMillion
                + (out / 1000000) * p.outputPricePerMillion)
              ((tc.tokens : ℚ) + out),
            pricing := p }, ?_, rfl, rfl, rfl, rfl, rfl, rfl, ?_⟩
  · simp only [calculateCost, hp, htc]
  · intro h
    simp [jsDiv, h]

/-- Witness for C1: the empty text on a claude-family key of the sample
catalog with zero expected output, where the zero denominator makes
costPerToken non-finite. -/
theorem calculateCost_formulas_witness :
    ∃ est, calculateCost sampleTotalLib sampleCatalog "" "claude-test" 0 = .ok est ∧
      est.inputTokens = (0 : ℕ) ∧
      est.outputTokens = 0 ∧
      est.inputCost = (((0 : ℕ) : ℚ) / 1000000) * sampleRecord.inputPricePerMillion ∧
      est.outputCost = ((0 : ℚ) / 1000000) * sampleRecord.outputPricePerMillion ∧
      est.totalCost = est.inputCost + est.outputCost ∧
      est.costPerToken = jsDiv est.totalCost (((0 : ℕ) : ℚ) + 0) ∧
      ((((0 : ℕ) : ℚ) + 0 = 0) → est.costPerToken = none) := by
  have h := calculateCost_formulas sampleTotalLib sampleCatalog "" "claude-test" 0
    sampleRecord { tokens := 0, characters := 0, model := "claude-test" }
    (by rfl) (by decide) (by norm_num)
  exact h

/-! ## C2 -/

/-- C2: with the external tokenizer behaving as its interface promises
(total), the estimator fails with UnknownModel exactly when the catalog
cannot resolve the model key after lowercasing and alias resolution,
returns normally for every resolvable key, and the comparator propagates
UnknownModel for the baseline model only. -/
theorem calculateCost_unknownModel_iff (lib : TiktokenLib) (cat : PricingRecordMap)
    (hTotal : ∀ s, (lib.encodingForModel s).isSome = true)
    (text : String) (out : ℚ) :
    (∀ model, calculateCost lib cat text model out = .error (.unknownModel model) ↔
      getModelPricing cat model = none) ∧
    (∀ model p, getModelPricing cat model = some p →
      ∃ est, calculateCost lib cat text model out = .ok est ∧ est.pricing = p) ∧
    (∀ currentModel alts,
      (compareCosts lib cat text currentModel alts out = .error (.unknownModel currentModel) ↔
        getModelPricing cat currentModel = none) ∧
      (∀ e, compareCosts lib cat text currentModel alts out = .error e →
        e = .unknownModel currentModel)) := by
  have hok : ∀ model p, getModelPricing cat model = some p →
      ∃ est, calculateCost lib cat text model out = .ok est ∧ est.pricing = p := by
    intro model p hp
    obtain ⟨tc, htc⟩ := countTokens_total lib cat text model hTotal
    refine ⟨{ model := model, inputTokens := tc.tokens, outputTokens := out,
              inputCost := ((tc.tokens : ℚ) / 1000000) * p.inputPricePerMillion,
              outputCost := (out / 1000000) * p.outputPricePerMillion,
              totalCost := ((tc.tokens : ℚ) / 1000000) * p.inputPricePerMillion
                + (out / 1000000) * p.outputPricePerMillion,
              costPerToken := jsDiv
                (((tc.tokens : ℚ) / 1000000) * p.inputPricePerMillion
                  + (out / 1000000) * p.outputPricePerMillion)
                ((tc.tokens : ℚ) + out),
              pricing := p }, ?_, rfl⟩
    simp only [calculateCost, hp, htc]
  have herr : ∀ model, calculateCost lib cat text model out = .error (.unknownModel model) ↔
      getModelPricing cat model = none := by
    intro model
    constructor
    · intro h
      cases hp : getModelPricing cat model with
      | none => rfl
      | some p =>
        obtain ⟨est, hest, _⟩ := hok model p hp
        rw [h] at hest
        exact absurd hest (by simp)
    · intro hp
      simp only [calculateCost, hp]
  refine ⟨herr, hok, ?_⟩
  intro currentModel alts
  constructor
  · constructor
    · intro h
      cases hp : getModelPricing cat currentModel with
      | none => rfl
      | some p =>
        obtain ⟨est, hest, _⟩ := hok currentModel p hp
        rw [compareCosts, hest] at h
        exact absurd h (by simp)
    · intro hp
      have := (herr currentModel).mpr hp
      rw [compareCosts, this]
  · intro e h
    cases hc : calculateCost lib cat text currentModel out with
    | error e' =>
      rw [compareCosts, hc] at h
      cases hp : getModelPricing cat currentModel with
      | none =>
        have := (herr currentModel).mpr hp
        rw [this] at hc
        injection hc with hc'
        injection h with h'
        rw [← h', ← hc']
      | some p =>
        obtain ⟨est, hest, _⟩ := hok currentModel p hp
        rw [hest] at hc
        exact absurd hc (by simp)
    | ok current =>
      rw [compareCosts, hc] at h
      exact absurd h (by simp)

/-- Witness for C2: with the default catalog, the unresolvable key
not-a-model makes the estimator fail with UnknownModel while the
resolvable key gpt-4o returns normally. -/
theorem calculateCost_unknownModel_iff_witness :
    calculateCost sampleTotalLib MODEL_PRICING "hello" "not-a-model" 500 =
      .error (.unknownModel "not-a-model") ∧
    (∃ est, calculateCost sampleTotalLib MODEL_PRICING "hello" "gpt-4o" 500 = .ok est ∧
      est.pricing = ⟨"GPT-4o", "OpenAI", 5.00, 15.00, 128000, some "cl100k_base"⟩) := by
  have h := calculateCost_unknownModel_iff sampleTotalLib MODEL_PRICING
    sampleTotalLib_total "hello" 500
  exact ⟨(h.1 "not-a-model").mpr (by decide),
    h.2.1 "gpt-4o" ⟨"GPT-4o", "OpenAI", 5.00, 15.00, 128000, some "cl100k_base"⟩ rfl⟩

/-! ## Sorting lemmas for the comparator -/

/-- Membership through stable insertion. -/
lemma mem_insertBySavingsDesc {x y : AltEntry} {l : List AltEntry} :
    y ∈ insertBySavingsDesc x l ↔ y = x ∨ y ∈ l := by
  induction l with
  | nil => simp [insertBySavingsDesc]
  | cons z zs ih =>
    simp only [insertBySavingsDesc]
    split
    · simp [List.mem_cons]
    · simp only [List.mem_cons, ih]
      tauto

/-- Membership through the stable sort. -/
lemma mem_sortBySavingsDesc {y : AltEntry} {l : List AltEntry} :
    y ∈ sortBySavingsDesc l ↔ y ∈ l := by
  induction l with
  | nil => simp [sortBySavingsDesc]
  | cons a l ih =>
    show y ∈ insertBySavingsDesc a (sortBySavingsDesc l) ↔ _
    rw [mem_insertBySavingsDesc, ih]
    simp [List.mem_cons]

/-- Stable insertion preserves the descending-by-savings order. -/
lemma sorted_insertBySavingsDesc {x : AltEntry} {l : List AltEntry}
    (h : l.Pairwise fun a b => b.savings ≤ a.savings) :
    (insertBySavingsDesc x l).Pairwise fun a b => b.savings ≤ a.savings := by
  induction l with
  | nil => simp [insertBySavingsDesc]
  | cons z zs ih =>
    rcases List.pairwise_cons.mp h with ⟨hz, hzs⟩
    simp only [insertBySavingsDesc]
    split
    · rename_i hle
      refine List.pairwise_cons.mpr ⟨?_, h⟩
      intro b hb
      rcases List.mem_cons.mp hb with rfl | hb
      · exact hle
      · exact le_trans (hz b hb) hle
    · rename_i hgt
      refine List.pairwise_cons.mpr ⟨?_, ih hzs⟩
      intro b hb
      rcases mem_insertBySavingsDesc.mp hb with rfl | hb
      · exact le_of_not_le hgt
      · exact hz b hb

/-- The stable sort yields a descending-by-savings list. -/
lemma sorted_sortBySavingsDesc (l : List AltEntry) :
    (sortBySavingsDesc l).Pairwise fun a b => b.savings ≤ a.savings := by
  induction l with
  | nil => simp [sortBySavingsDesc]
  | cons a l ih => exact sorted_insertBySavingsDesc ih

/-- Stability of insertion: restricted to any fixed savings value, the
inserted element lands in front exactly when it carries that value, and
the relative order of the rest is untouched (the insertion only walks
past strictly greater savings). -/
lemma filter_insertBySavingsDesc (x : AltEntry) (l : List AltEntry) (v : ℚ) :
    (insertBySavingsDesc x l).filter (fun a => decide (a.savings = v)) =
    if x.savings = v then
      x :: l.filter (fun a => decide (a.savings = v))
    else
      l.filter (fun a => decide (a.savings = v)) := by
  induction l with
  | nil =>
    by_cases hx : x.savings = v <;> simp [insertBySavingsDesc, List.filter, hx]
  | cons z zs ih =>
    simp only [insertBySavingsDesc]
    split
    · rename_i hle
      by_cases hx : x.savings = v <;> simp [List.filter_cons, hx]
    · rename_i hgt
      by_cases hz : z.savings = v
      · have hx : ¬ x.savings = v := by
          intro hxv
          exact hgt (by rw [hxv, hz])
        simp [List.filter_cons, hz, hx, ih]
      · simp [List.filter_cons, hz, ih]

/-- Stability of the sort: restricted to any fixed savings value, the
sorted list preserves the input order. -/
lemma filter_sortBySavingsDesc (l : List AltEntry) (v : ℚ) :
    (sortBySavingsDesc l).filter (fun a => decide (a.savings = v)) =
    l.filter (fun a => decide (a.savings = v)) := by
  induction l with
  | nil => rfl
  | cons a l ih =>
    show (insertBySavingsDesc a (sortBySavingsDesc l)).filter _ = _
    rw [filter_insertBySavingsDesc]
    by_cases ha : a.savings = v <;> simp [List.filter_cons, ha, ih]

/-! ## C3 -/

/-- A successful cost calculation implies the model resolved. -/
lemma resolve_isSome_of_calculateCost_ok {lib : TiktokenLib} {cat : PricingRecordMap}
    {text model : String} {out : ℚ} {est : CostEstimate}
    (h : calculateCost lib cat text model out = .ok est) :
    ∃ p, getModelPricing cat model = some p := by
  unfold calculateCost at h
  cases hp : getModelPricing cat model with
  | none => rw [hp] at h; exact absurd h (by simp)
  | some p => exact ⟨p, rfl⟩

/-- An element of the raw candidate list comes from a candidate whose
estimate succeeded, and carries that candidate's key. -/
lemma mem_compareAlternativesRaw {lib : TiktokenLib} {cat : PricingRecordMap}
    {text : String} {current : CostEstimate} {alts : List String} {out : ℚ}
    {a : AltEntry} (ha : a ∈ compareAlternativesRaw lib cat text current alts out) :
    ∃ m, m ∈ alts ∧ a.model = m ∧
      ∃ est, calculateCost lib cat text m out = .ok est := by
  obtain ⟨m, hm, hf⟩ := List.mem_filterMap.mp ha
  cases hc : calculateCost lib cat text m out with
  | error e => rw [hc] at hf; exact absurd hf (by simp)
  | ok est =>
    rw [hc] at hf
    simp only [Option.some_inj] at hf
    exact ⟨m, hm, by rw [← hf], est, hc⟩

/-- C3: for every text, resolvable baseline, candidate sequence and
expected output count, the alternatives list is sorted descending by
savings, stable (restricted to any savings value the input order of the
raw candidate entries is preserved), never contains the baseline model
key (the CLI compare command filters the baseline out of the candidate
list, expressed both as the hypothesis on the candidate sequence and by
the final conjunct about `cliAlternatives`), and never contains an
unresolvable candidate. -/
theorem compareCosts_alternatives_spec (lib : TiktokenLib) (cat : PricingRecordMap)
    (text currentModel : String) (alts : List String) (out : ℚ)
    (comp : CostComparison)
    (hok : compareCosts lib cat text currentModel alts out = .ok comp)
    (hbase : currentModel ∉ alts) :
    comp.alternatives.Pairwise (fun a b => b.savings ≤ a.savings) ∧
    (∀ v : ℚ, comp.alternatives.filter (fun a => decide (a.savings = v)) =
      (compareAlternativesRaw lib cat text comp.current alts out).filter
        (fun a => decide (a.savings = v))) ∧
    (∀ a ∈ comp.alternatives, a.model ≠ currentModel) ∧
    (∀ a ∈ comp.alternatives, ∃ p, getModelPricing cat a.model = some p) ∧
    (∀ model, model ∉ cliAlternatives model) := by
  have hcomp : ∃ current, calculateCost lib cat text currentModel out = .ok current ∧
      comp = ⟨current,
        sortBySavingsDesc (compareAlternativesRaw lib cat text current alts out)⟩ := by
    unfold compareCosts at hok
    cases hc : calculateCost lib cat text currentModel out with
    | error e => rw [hc] at hok; exact absurd hok (by simp)
    | ok current =>
      rw [hc] at hok
      simp only [Except.ok.injEq] at hok
      exact ⟨current, rfl, hok.symm⟩
  obtain ⟨current, hc, rfl⟩ := hcomp
  refine ⟨sorted_sortBySavingsDesc _, ?_, ?_, ?_, ?_⟩
  · intro v
    exact filter_sortBySavingsDesc _ v
  · intro a ha
    obtain ⟨m, hm, hma, _⟩ :=
      mem_compareAlternativesRaw (mem_sortBySavingsDesc.mp ha)
    rw [hma]
    intro hmc
    exact hbase (hmc ▸ hm)
  · intro a ha
    obtain ⟨m, _, hma, est, hest⟩ :=
      mem_compareAlternativesRaw (mem_sortBySavingsDesc.mp ha)
    rw [hma]
    exact resolve_isSome_of_calculateCost_ok hest
  · intro model hmem
    simp [cliAlternatives] at hmem

/-- Witness for C3: a concrete comparison of gpt-4o against a
claude-family candidate on the default catalog. -/
theorem compareCosts_alternatives_spec_witness :
    ∃ comp, compareCosts sampleTotalLib MODEL_PRICING "abc" "gpt-4o"
        ["claude-sonnet-4"] 0 = .ok comp ∧
      comp.alternatives.Pairwise (fun a b => b.savings ≤ a.savings) ∧
      (∀ a ∈ comp.alternatives, a.model ≠ "gpt-4o") := by
  obtain ⟨comp, hok⟩ : ∃ comp, compareCosts sampleTotalLib MODEL_PRICING "abc" "gpt-4o"
      ["claude-sonnet-4"] 0 = .ok comp :=
    exists_ok_of_isOk (by decide)
  have h := compareCosts_alternatives_spec sampleTotalLib MODEL_PRICING "abc" "gpt-4o"
    ["claude-sonnet-4"] 0 comp hok (by decide)
  exact ⟨comp, hok, h.1, h.2.2.1⟩

/-! ## C4 -/

/-- C4: the tokenizer adapter dispatches in the fixed priority order on
the lowercased key — an OpenAI (family A) marker selects the exact
vendor tokenizer; a Claude or Gemini marker (families B, C) yields the
length heuristic, the character length divided by 4 rounded up; a llama
key and the final default both route to family A's tiktoken library
(the llama branch with the fixed base encoding, spelled out by the last
conjunct). -/
theorem countTokens_dispatch (lib : TiktokenLib) (cat : PricingRecordMap)
    (text model : String) :
    (jsIncludes (jsToLower model) "gpt" = true →
      countTokens lib cat text model = countOpenAITokens lib cat text model) ∧
    (jsIncludes (jsToLower model) "gpt" = false →
      jsIncludes (jsToLower model) "claude" = true →
      countTokens lib cat text model =
        some ⟨⌈(text.length : ℚ) / 4⌉₊, text.length, model⟩) ∧
    (jsIncludes (jsToLower model) "gpt" = false →
      jsIncludes (jsToLower model) "claude" = false →
      jsIncludes (jsToLower model) "gemini" = true →
      countTokens lib cat text model =
        some ⟨⌈(text.length : ℚ) / 4⌉₊, text.length, model⟩) ∧
    (jsIncludes (jsToLower model) "gpt" = false →
      jsIncludes (jsToLower model) "claude" = false →
      jsIncludes (jsToLower model) "gemini" = false →
      jsIncludes (jsToLower model) "llama" = true →
      countTokens lib cat text model = countLlamaTokens lib text model) ∧
    (jsIncludes (jsToLower model) "gpt" = false →
      jsIncludes (jsToLower model) "claude" = false →
      jsIncludes (jsToLower model) "gemini" = false →
      jsIncludes (jsToLower model) "llama" = false →
      countTokens lib cat text model = countOpenAITokens lib cat text model) ∧
    (countLlamaTokens lib text model =
      (lib.encodingForModel "cl100k_base").map fun enc =>
        ⟨(enc.encode text).length, text.length, model⟩) := by
  refine ⟨?_, ?_, ?_, ?_, ?_, ?_⟩
  · intro h1
    simp only [countTokens, h1, if_true]
  · intro h1 h2
    simp only [countTokens, h1, h2, Bool.false_eq_true, if_false, if_true,
      countClaudeTokens, natCeilDivFour]
  · intro h1 h2 h3
    simp only [countTokens, h1, h2, h3, Bool.false_eq_true, if_false, if_true,
      countGeminiTokens, natCeilDivFour]
  · intro h1 h2 h3 h4
    simp only [countTokens, h1, h2, h3, h4, Bool.false_eq_true, if_false, if_true]
  · intro h1 h2 h3 h4
    simp only [countTokens, h1, h2, h3, h4, Bool.false_eq_true, if_false]
  · unfold countLlamaTokens
    cases lib.encodingForModel "cl100k_base" <;> rfl

/-- Witness for C4: a claude-family key takes the heuristic branch. -/
theorem countTokens_dispatch_witness :
    countTokens sampleTotalLib MODEL_PRICING "abcde" "claude-3-opus" =
      some ⟨⌈(("abcde" : String).length : ℚ) / 4⌉₊, ("abcde" : String).length,
            "claude-3-opus"⟩ :=
  (countTokens_dispatch sampleTotalLib MODEL_PRICING "abcde" "claude-3-opus").2.1
    (by decide) (by decide)

/-! ## C5 -/

/-- C5: for every text and every model classified into a
family-heuristic vendor family (claude or gemini, not gpt), the input
token count of a successful estimate is deterministic, non-negative and
equals the character length divided by 4 rounded up. -/
theorem estimator_heuristic_inputTokens (lib : TiktokenLib) (cat : PricingRecordMap)
    (T model : String) (out : ℚ) (est : CostEstimate)
    (hgpt : jsIncludes (jsToLower model) "gpt" = false)
    (hfam : jsIncludes (jsToLower model) "claude" = true ∨
      jsIncludes (jsToLower model) "gemini" = true)
    (hok : calculateCost lib cat T model out = .ok est) :
    (∀ est2, calculateCost lib cat T model out = .ok est2 →
      est2.inputTokens = est.inputTokens) ∧
    0 ≤ est.inputTokens ∧
    est.inputTokens = ⌈((T : String).length : ℚ) / 4⌉₊ := by
  refine ⟨?_, Nat.zero_le _, ?_⟩
  · intro est2 h2
    rw [hok] at h2
    simp only [Except.ok.injEq] at h2
    rw [h2]
  · have htc : countTokens lib cat T model = some (countClaudeTokens T model) := by
      rcases hfam with hclaude | hgemini
      · simp only [countTokens, hgpt, hclaude, Bool.false_eq_true, if_false, if_true]
      · by_cases hclaude : jsIncludes (jsToLower model) "claude" = true
        · simp only [countTokens, hgpt, hclaude, Bool.false_eq_true, if_false, if_true]
        · simp only [Bool.not_eq_true] at hclaude
          simp only [countTokens, hgpt, hclaude, hgemini, Bool.false_eq_true,
            if_false, if_true]
          rfl
    unfold calculateCost at hok
    cases hp : getModelPricing cat model with
    | none => rw [hp] at hok; exact absurd hok (by simp)
    | some p =>
      rw [hp, htc] at hok
      simp only [Except.ok.injEq] at hok
      rw [← hok]
      simp [countClaudeTokens, natCeilDivFour]

/-- Witness for C5: a concrete claude estimate on the default catalog
whose input token count is the rounded-up quarter of the length. -/
theorem estimator_heuristic_inputTokens_witness :
    ∃ est, calculateCost sampleTotalLib MODEL_PRICING "abcd" "claude-sonnet-4" 500 =
        .ok est ∧
      est.inputTokens = ⌈(("abcd" : String).length : ℚ) / 4⌉₊ := by
  obtain ⟨est, hok⟩ : ∃ est,
      calculateCost sampleTotalLib MODEL_PRICING "abcd" "claude-sonnet-4" 500 = .ok est :=
    exists_ok_of_isOk (by decide)
  exact ⟨est, hok,
    (estimator_heuristic_inputTokens sampleTotalLib MODEL_PRICING "abcd"
      "claude-sonnet-4" 500 est (by decide) (Or.inl (by decide)) hok).2.2⟩

/-! ## C8 -/

/-- A 4000-character text, used to instantiate the Scenario A theorem. -/
def sampleLongText : String := String.mk (List.replicate 4000 'a')

/-- C8, Scenario A: a 4000-character text on a heuristic-family model
priced 5.00/15.00 per million with 500 expected output tokens yields
1000 input tokens, inputCost 0.005, outputCost 0.0075 and totalCost
0.0125. -/
theorem calculateCost_scenarioA (lib : TiktokenLib) (cat : PricingRecordMap)
    (text model : String) (p : ModelPricing)
    (hlen : text.length = 4000)
    (hgpt : jsIncludes (jsToLower model) "gpt" = false)
    (hclaude : jsIncludes (jsToLower model) "claude" = true)
    (hp : getModelPricing cat model = some p)
    (hin : p.inputPricePerMillion = 5.00)
    (hrate : p.outputPricePerMillion = 15.00) :
    ∃ est, calculateCost lib cat text model 500 = .ok est ∧
      est.inputTokens = 1000 ∧
      est.inputCost = 0.005 ∧
      est.outputCost = 0.0075 ∧
      est.totalCost = 0.0125 := by
  have htc : countTokens lib cat text model = some (countClaudeTokens text model) := by
    simp only [countTokens, hgpt, hclaude, Bool.false_eq_true, if_false, if_true]
  have htok : (countClaudeTokens text model).tokens = 1000 := by
    simp [countClaudeTokens, hlen]
  unfold calculateCost
  rw [hp, htc]
  dsimp only
  refine ⟨_, rfl, ?_, ?_, ?_, ?_⟩
  · exact htok
  · show ((countClaudeTokens text model).tokens : ℚ) / 1000000 * p.inputPricePerMillion
      = 0.005
    rw [htok, hin]
    norm_num
  · show (500 : ℚ) / 1000000 * p.outputPricePerMillion = 0.0075
    rw [hrate]
    norm_num
  · show ((countClaudeTokens text model).tokens : ℚ) / 1000000 * p.inputPricePerMillion
      + (500 : ℚ) / 1000000 * p.outputPricePerMillion = 0.0125
    rw [htok, hin, hrate]
    norm_num

/-- Witness for C8: the 4000-character sample text on the sample
claude-family catalog entry with integer rates 5 and 15. -/
theorem calculateCost_scenarioA_witness :
    ∃ est, calculateCost sampleTotalLib sampleCatalog sampleLongText "claude-test" 500 =
        .ok est ∧
      est.inputTokens = 1000 ∧
      est.inputCost = 0.005 ∧
      est.outputCost = 0.0075 ∧
      est.totalCost = 0.0125 :=
  calculateCost_scenarioA sampleTotalLib sampleCatalog sampleLongText "claude-test"
    sampleRecord
    (by show (List.replicate 4000 'a').length = 4000; rw [List.length_replicate])
    (by decide) (by decide)
    (by rfl) (by norm_num [sampleRecord]) (by norm_num [sampleRecord])

/-! ## C10 -/

/-- The exact-tokenizer branch reports the text's character length and
the given model key. -/
lemma countOpenAITokens_fields {lib : TiktokenLib} {cat : PricingRecordMap}
    {text model : String} {tc : TokenCount}
    (h : countOpenAITokens lib cat text model = some tc) :
    tc.characters = text.length ∧ tc.model = model := by
  unfold countOpenAITokens at h
  dsimp only at h
  split at h
  · simp only [Option.some_inj] at h
    rw [← h]
    exact ⟨rfl, rfl⟩
  · split at h
    · simp only [Option.some_inj] at h
      rw [← h]
      exact ⟨rfl, rfl⟩
    · exact absurd h (by simp)

/-- The llama branch reports the text's character length and the given
model key. -/
lemma countLlamaTokens_fields {lib : TiktokenLib} {text model : String}
    {tc : TokenCount} (h : countLlamaTokens lib text model = some tc) :
    tc.characters = text.length ∧ tc.model = model := by
  unfold countLlamaTokens at h
  split at h
  · simp only [Option.some_inj] at h
    rw [← h]
    exact ⟨rfl, rfl⟩
  · exact absurd h (by simp)

/-- C10: whatever vendor-family branch handles the count, the returned
TokenCount carries the character length of the input text and the model
key that was passed in. -/
theorem countTokens_characters_model (lib : TiktokenLib) (cat : PricingRecordMap)
    (text model : String) (tc : TokenCount)
    (h : countTokens lib cat text model = some tc) :
    tc.characters = text.length ∧ tc.model = model := by
  unfold countTokens at h
  dsimp only at h
  split at h
  · exact countOpenAITokens_fields h
  · split at h
    · simp only [Option.some_inj] at h
      rw [← h]
      exact ⟨rfl, rfl⟩
    · split at h
      · simp only [Option.some_inj] at h
        rw [← h]
        exact ⟨rfl, rfl⟩
      · split at h
        · exact countLlamaTokens_fields h
        · exact countOpenAITokens_fields h

/-- Witness for C10: a two-character text on a claude key. -/
theorem countTokens_characters_model_witness :
    (⟨1, 2, "claude-sonnet-4"⟩ : TokenCount).characters = ("ab" : String).length ∧
    (⟨1, 2, "claude-sonnet-4"⟩ : TokenCount).model = "claude-sonnet-4" :=
  countTokens_characters_model sampleTotalLib MODEL_PRICING "ab" "claude-sonnet-4"
    ⟨1, 2, "claude-sonnet-4"⟩ (by decide)

/-! ## C7 -/

/-- The context-reduction rule fires in the non-throwing tail of the
optimizer whenever the input token count exceeds 1000. -/
lemma reduceContext_mem_tail (est : CostEstimate) (hgt : 1000 < est.inputTokens) :
    Optimization.reduceContext (min 1000 ((est.inputTokens : ℚ) * 0.3))
      ((min 1000 ((est.inputTokens : ℚ) * 0.3)) / 1000000
        * est.pricing.inputPricePerMillion) ∈ getCostOptimizationsTail est := by
  simp [getCostOptimizationsTail, hgt, List.mem_append]

/-- C7: whenever the optimizer returns and the estimate's input token
count exceeds 1000, the suggestion list contains a trim-input suggestion
whose token reduction is min(1000, inputTokens × 0.3) and whose savings
are that reduction divided by 1,000,000 times the current model's input
rate; in particular an estimate with 2000 input tokens on a gpt-4o key
without a mini suffix gets both a switch-to-mini-sibling suggestion and
a reduce-context-by-600-tokens suggestion. -/
theorem getCostOptimizations_spec (lib : TiktokenLib) (cat : PricingRecordMap)
    (est : CostEstimate) (l : List Optimization)
    (h : getCostOptimizations lib cat est = some l) :
    (1000 < est.inputTokens →
      Optimization.reduceContext (min 1000 ((est.inputTokens : ℚ) * 0.3))
        ((min 1000 ((est.inputTokens : ℚ) * 0.3)) / 1000000
          * est.pricing.inputPricePerMillion) ∈ l) ∧
    (est.inputTokens = 2000 →
      jsIncludes est.model "gpt-4o" = true →
      jsIncludes est.model "mini" = false →
      ((∃ s pct, Optimization.switchToMini s pct ∈ l) ∧
        Optimization.reduceContext 600
          ((600 : ℚ) / 1000000 * est.pricing.inputPricePerMillion) ∈ l)) := by
  have hmem : ∀ x ∈ getCostOptimizationsTail est, x ∈ l := by
    unfold getCostOptimizations at h
    split at h
    · split at h
      · exact absurd h (by simp)
      · simp only [Option.some_inj] at h
        intro x hx
        rw [← h]
        exact List.mem_cons_of_mem _ hx
    · simp only [Option.some_inj] at h
      intro x hx
      rw [← h]
      exact hx
  have hmini : jsIncludes est.model "gpt-4o" = true →
      jsIncludes est.model "mini" = false →
      ∃ s pct, Optimization.switchToMini s pct ∈ l := by
    intro h1 h2
    unfold getCostOptimizations at h
    split at h
    · split at h
      · exact absurd h (by simp)
      · simp only [Option.some_inj] at h
        exact ⟨_, _, by rw [← h]; exact List.mem_cons_self _ _⟩
    · rename_i hcond
      rw [h1, h2] at hcond
      simp at hcond
  refine ⟨?_, ?_⟩
  · intro hgt
    exact hmem _ (reduceContext_mem_tail est hgt)
  · intro h2000 h1 h2
    refine ⟨hmini h1 h2, ?_⟩
    have hmin : min (1000 : ℚ) ((est.inputTokens : ℚ) * 0.3) = 600 := by
      rw [h2000]
      norm_num [min_def]
    have := hmem _ (reduceContext_mem_tail est (by rw [h2000]; norm_num))
    rw [hmin] at this
    exact this

/-- A concrete estimate with 2000 input tokens on the gpt-4o key, used
to instantiate the optimizer theorem. -/
def sampleEstimate : CostEstimate :=
  { model := "gpt-4o", inputTokens := 2000, outputTokens := 500, inputCost := 0,
    outputCost := 0, totalCost := 0, costPerToken := none,
    pricing := ⟨"GPT-4o", "OpenAI", 5, 15, 128000, some "cl100k_base"⟩ }

/-- Witness for C7: the sample estimate receives both suggestions. -/
theorem getCostOptimizations_spec_witness :
    ∃ l, getCostOptimizations sampleTotalLib MODEL_PRICING sampleEstimate = some l ∧
      (∃ s pct, Optimization.switchToMini s pct ∈ l) ∧
      Optimization.reduceContext 600
        ((600 : ℚ) / 1000000 * sampleEstimate.pricing.inputPricePerMillion) ∈ l := by
  obtain ⟨l, hl⟩ : ∃ l,
      getCostOptimizations sampleTotalLib MODEL_PRICING sampleEstimate = some l :=
    Option.isSome_iff_exists.mp (by decide)
  have h := (getCostOptimizations_spec sampleTotalLib MODEL_PRICING sampleEstimate l
    hl).2 rfl (by decide) (by decide)
  exact ⟨l, hl, h.1, h.2⟩

/-! ## C6 -/

/-- C6: catalog initialization is total for every fetch outcome (every
failure of the fetch path is absorbed before reaching it, so it never
throws); from the module-load state a failed fetch silently retains the
default table; a successful fetch installs the default table overlaid by
the fetched entries with fetched entries winning on conflict; and once
the initialized flag is set every further call is a no-op. -/
theorem initializePricing_spec :
    (∀ now, (initializePricing .failure now initialPricingState
      initialFetcherCache).1.runtimePricing = MODEL_PRICING) ∧
    (∀ d now,
      (initializePricing (.success d) now initialPricingState
        initialFetcherCache).1.runtimePricing =
          mergePricing (convertLiteLLMPricing d) MODEL_PRICING ∧
      (∀ k v, convertLiteLLMPricing d k = some v →
        (initializePricing (.success d) now initialPricingState
          initialFetcherCache).1.runtimePricing k = some v) ∧
      (∀ k, convertLiteLLMPricing d k = none →
        (initializePricing (.success d) now initialPricingState
          initialFetcherCache).1.runtimePricing k = MODEL_PRICING k)) ∧
    (∀ outcome now ps cache, ps.pricingInitialized = true →
      initializePricing outcome now ps cache = (ps, cache)) ∧
    (∀ o1 n1 o2 n2 cache,
      initializePricing o2 n2 (initializePricing o1 n1 initialPricingState cache).1
          (initializePricing o1 n1 initialPricingState cache).2 =
        initializePricing o1 n1 initialPricingState cache) := by
  have hflag : ∀ outcome now ps cache, ps.pricingInitialized = true →
      initializePricing outcome now ps cache = (ps, cache) := by
    intro outcome now ps cache hps
    simp [initializePricing, hps]
  refine ⟨?_, ?_, hflag, ?_⟩
  · intro now
    funext k
    simp [initializePricing, initialPricingState, initialFetcherCache,
      getCachedPricing, fetchCommunityPricing, mergePricing, emptyPricing]
  · intro d now
    refine ⟨?_, ?_, ?_⟩
    · simp [initializePricing, initialPricingState, initialFetcherCache,
        getCachedPricing, fetchCommunityPricing]
    · intro k v hkv
      simp [initializePricing, initialPricingState, initialFetcherCache,
        getCachedPricing, fetchCommunityPricing, mergePricing, hkv]
    · intro k hk
      simp [initializePricing, initialPricingState, initialFetcherCache,
        getCachedPricing, fetchCommunityPricing, mergePricing, hk]
  · intro o1 n1 o2 n2 cache
    rw [hflag]
    simp [initializePricing, initialPricingState]

/-- Witness for C6: a failed fetch at time 0 leaves the default table in
place. -/
theorem initializePricing_spec_witness :
    (initializePricing .failure 0 initialPricingState
      initialFetcherCache).1.runtimePricing = MODEL_PRICING :=
  initializePricing_spec.1 0

/-! ## C9 -/

/-- Tracing the conversion fold: a key held by the folded record either
was already in the accumulator or comes from a mapped, non-falsy entry
of the document, with per-million prices equal to the per-token costs
times 1,000,000. -/
lemma convert_foldl_trace (d : List (String × LiteLLMModel)) (acc : PricingRecordMap)
    (k : String) (r : ModelPricing)
    (h : d.foldl convertStep acc k = some r) :
    acc k = some r ∨
    ∃ lk m mp ci co, (lk, m) ∈ d ∧ modelMappings lk = some mp ∧ mp.key = k ∧
      m.input_cost_per_token = some ci ∧ m.output_cost_per_token = some co ∧
      r.inputPricePerMillion = ci * 1000000 ∧
      r.outputPricePerMillion = co * 1000000 ∧
      r.name = mp.name ∧ r.provider = mp.provider := by
  induction d generalizing acc with
  | nil => exact Or.inl h
  | cons e tl ih =>
    obtain ⟨lk, m⟩ := e
    rcases ih (convertStep acc (lk, m)) h with hacc | htl
    · unfold convertStep at hacc
      dsimp only at hacc
      by_cases hfalsy : (jsFalsyNum m.input_cost_per_token ||
          jsFalsyNum m.output_cost_per_token) = true
      · rw [if_pos hfalsy] at hacc
        exact Or.inl hacc
      · rw [if_neg hfalsy] at hacc
        cases hmp : modelMappings lk with
        | none =>
          rw [hmp] at hacc
          exact Or.inl hacc
        | some mp =>
          rw [hmp] at hacc
          unfold setPricing at hacc
          dsimp only at hacc
          by_cases hkey : k = mp.key
          · rw [if_pos hkey] at hacc
            simp only [Option.some_inj] at hacc
            simp only [Bool.or_eq_true, not_or, Bool.not_eq_true] at hfalsy
            obtain ⟨hfi, hfo⟩ := hfalsy
            cases hci : m.input_cost_per_token with
            | none => rw [hci] at hfi; simp [jsFalsyNum] at hfi
            | some ci =>
              cases hco : m.output_cost_per_token with
              | none => rw [hco] at hfo; simp [jsFalsyNum] at hfo
              | some co =>
                refine Or.inr ⟨lk, m, mp, ci, co, List.mem_cons_self _ _, hmp,
                  hkey.symm, hci, hco, ?_, ?_, ?_, ?_⟩ <;>
                  rw [← hacc] <;> simp [hci, hco]
          · rw [if_neg hkey] at hacc
            exact Or.inl hacc
    · obtain ⟨lk2, m2, mp, ci, co, hmem, rest⟩ := htl
      exact Or.inr ⟨lk2, m2, mp, ci, co, List.mem_cons_of_mem _ hmem, rest⟩

/-- C9: the conversion of the remote pricing document skips every entry
with a falsy cost field, skips every key outside the explicit
allowlist/rename table, and every retained record's per-million prices
equal the per-token costs multiplied by 1,000,000 (carrying the mapped
display name and provider). -/
theorem convertLiteLLMPricing_spec :
    (∀ (pricing : PricingRecordMap) (litellmKey : String) (model : LiteLLMModel),
      (jsFalsyNum model.input_cost_per_token ||
        jsFalsyNum model.output_cost_per_token) = true →
      convertStep pricing (litellmKey, model) = pricing) ∧
    (∀ (pricing : PricingRecordMap) (litellmKey : String) (model : LiteLLMModel),
      modelMappings litellmKey = none →
      convertStep pricing (litellmKey, model) = pricing) ∧
    (∀ d k r, convertLiteLLMPricing d k = some r →
      ∃ lk m mp ci co, (lk, m) ∈ d ∧ modelMappings lk = some mp ∧ mp.key = k ∧
        m.input_cost_per_token = some ci ∧ m.output_cost_per_token = some co ∧
        r.inputPricePerMillion = ci * 1000000 ∧
        r.outputPricePerMillion = co * 1000000 ∧
        r.name = mp.name ∧ r.provider = mp.provider) := by
  refine ⟨?_, ?_, ?_⟩
  · intro pricing litellmKey model hcond
    simp [convertStep, hcond]
  · intro pricing litellmKey model hmap
    unfold convertStep
    dsimp only
    split
    · rfl
    · rw [hmap]
  · intro d k r h
    rcases convert_foldl_trace d emptyPricing k r h with hacc | htrace
    · simp [emptyPricing] at hacc
    · exact htrace

/-- An allowlisted sample entry with integer per-token costs. -/
def sampleLiteLLMModelA : LiteLLMModel :=
  { input_cost_per_token := some 2, output_cost_per_token := some 3,
    max_input_tokens := some 128000, litellm_provider := some "openai" }

/-- A sample entry under a key outside the allowlist. -/
def sampleLiteLLMModelB : LiteLLMModel :=
  { input_cost_per_token := some 1, output_cost_per_token := some 1,
    max_input_tokens := none, litellm_provider := none }

/-- A two-entry remote document: one allowlisted key with integer
per-token costs and one key outside the allowlist. -/
def sampleLiteLLMDoc : List (String × LiteLLMModel) :=
  [("gpt-4o", sampleLiteLLMModelA), ("unknown-model", sampleLiteLLMModelB)]

/-- Witness for C9: the retained gpt-4o record of the sample document
traces back to its allowlisted, non-falsy source entry. -/
theorem convertLiteLLMPricing_spec_witness :
    ∃ r, convertLiteLLMPricing sampleLiteLLMDoc "gpt-4o" = some r ∧
      ∃ lk m mp ci co, (lk, m) ∈ sampleLiteLLMDoc ∧ modelMappings lk = some mp ∧
        mp.key = "gpt-4o" ∧ m.input_cost_per_token = some ci ∧
        m.output_cost_per_token = some co ∧
        r.inputPricePerMillion = ci * 1000000 ∧
        r.outputPricePerMillion = co * 1000000 ∧
        r.name = mp.name ∧ r.provider = mp.provider := by
  obtain ⟨r, hr⟩ : ∃ r, convertLiteLLMPricing sampleLiteLLMDoc "gpt-4o" = some r :=
    Option.isSome_iff_exists.mp (by decide)
  exact ⟨r, hr, convertLiteLLMPricing_spec.2.2 _ _ _ hr⟩
